import Mathlib

/-!
Verification of the DDCalc C++ example program (`examples/DDCalc_exampleC.cpp`).

The program is a thin interactive driver around the external DDCalc library:
it parses command-line flags to choose an input mode, creates library handles
(one halo, one WIMP, four detectors), then loops reading WIMP parameter lines
from standard input, pushing them into the library and printing a report, and
finally frees all handles.

The embedding below models:
  * `GetWIMPParams` — the input-line parser with its cascading default-fill
    policy, over token lists (a token either parses as a number or is
    malformed);
  * the command-line argument scan of `main` (`argLoop`);
  * the observable behaviour of `main` as a trace of library calls and
    output events (`mainTrace`), with the input stream given as a list of
    token lines (an exhausted list models end of stream, since `getline`
    then leaves an empty line whose first field read fails).
All numeric values are modelled as rationals; the claims under study concern
parsing, defaulting and call ordering, not floating-point arithmetic.
-/

namespace DDCalcExample

/-- Input-parameter type selector: four-fermion effective couplings G
(`const int TYPE_MG = 1;`). -/
def TYPE_MG : Nat := 1

/-- Input-parameter type selector: effective couplings f (SI), a (SD)
(`const int TYPE_MFA = 2;`). -/
def TYPE_MFA : Nat := 2

/-- One whitespace-separated token of an input line: either a numeric token
with its parsed value, or a malformed token on which `operator>>` fails. -/
inductive Token where
  | num (v : ℚ)
  | bad
  deriving DecidableEq, Repr

/-- The five-field WIMP parameter record filled in by `GetWIMPParams`:
mass `M` and the four couplings `xpSI xnSI xpSD xnSD`. -/
structure CouplingSet where
  M : ℚ
  xpSI : ℚ
  xnSI : ℚ
  xpSD : ℚ
  xnSD : ℚ
  deriving DecidableEq, Repr

/-- One formatted-extraction step `iss >> x`: succeeds on a leading numeric
token (consuming it), fails at end of line or on a malformed token. -/
def readField : List Token → Option (ℚ × List Token)
  | Token.num v :: rest => some (v, rest)
  | _ => none

/-- `GetWIMPParams` of the example program, as a function from the token list
of one input line to `none` (the C++ function returns `false`) or the
resulting `CouplingSet` (it returns `true` after the cascading default fill):
  * first or second read fails → `false`;
  * third read fails → `xnSI = xpSI`, `xpSD = 0`, `xnSD = 0`;
  * fourth read fails → `xpSD = 0`, `xnSD = 0`;
  * fifth read fails → `xnSD = xpSD`;
  * otherwise all five fields verbatim. -/
def GetWIMPParams (line : List Token) : Option CouplingSet :=
  match readField line with
  | none => none
  | some (mv, ts1) =>
    match readField ts1 with
    | none => none
    | some (xpSIv, ts2) =>
      match readField ts2 with
      | none => some ⟨mv, xpSIv, xpSIv, 0, 0⟩
      | some (xnSIv, ts3) =>
        match readField ts3 with
        | none => some ⟨mv, xpSIv, xnSIv, 0, 0⟩
        | some (xpSDv, ts4) =>
          match readField ts4 with
          | none => some ⟨mv, xpSIv, xnSIv, xpSDv, xpSDv⟩
          | some (xnSDv, _) => some ⟨mv, xpSIv, xnSIv, xpSDv, xnSDv⟩

/-- The four lines printed by the `--help` branch of `main`. -/
def usageMessage : List String :=
  ["Usage:",
   "  ./DDCalc_exampleC [--mG|--mfa]",
   "where the optional flag specifies the form in which the WIMP-",
   "nucleon couplings will be provided (default: --mfa)."]

/-- Observable events of a run of `main`: library calls and output actions. -/
inductive Event where
  | initHalo
  | initWIMP
  | initDetector (name : String)
  | setWIMP_mG (c : CouplingSet)
  | setWIMP_mfa (c : CouplingSet)
  | getWIMP_mfa
  | getWIMP_mG
  | calcRates (name : String)
  | printReport
  | printLines (ls : List String)
  | exitZero
  | warnUnknown (a : String)
  | freeAll
  deriving DecidableEq, Repr

/-- The argument-scanning loop of `main`: `--mG` and `--mfa` overwrite the
type, `--help` prints the usage message and exits the process (result
`none`), any other token emits a warning and is ignored. Returns the events
emitted during the scan and `some type` when the scan runs to completion. -/
def argLoop (type : Nat) : List String → List Event × Option Nat
  | [] => ([], some type)
  | a :: rest =>
    if a = "--mG" then argLoop TYPE_MG rest
    else if a = "--mfa" then argLoop TYPE_MFA rest
    else if a = "--help" then ([Event.printLines usageMessage, Event.exitZero], none)
    else
      let p := argLoop type rest
      (Event.warnUnknown a :: p.1, p.2)

/-- The detector creation calls of `main`, in source order. -/
def initEvents : List Event :=
  [Event.initHalo, Event.initWIMP,
   Event.initDetector "XENON100_2012", Event.initDetector "LUX_2013",
   Event.initDetector "SuperCDMS_2014", Event.initDetector "SIMPLE_2014"]

/-- The body of one iteration of the input loop: the `switch (type)` setter
call (no branch for any other value, matching the C++ `switch` without a
default case), the two read-backs, one `CalcRates` per detector handle, and
the printed report. -/
def iterEvents (type : Nat) (c : CouplingSet) : List Event :=
  (if type = TYPE_MG then [Event.setWIMP_mG c]
   else if type = TYPE_MFA then [Event.setWIMP_mfa c]
   else [])
  ++ [Event.getWIMP_mfa, Event.getWIMP_mG,
      Event.calcRates "XENON100_2012", Event.calcRates "LUX_2013",
      Event.calcRates "SuperCDMS_2014", Event.calcRates "SIMPLE_2014",
      Event.printReport]

/-- The input loop (`while (GetWIMPParams(...))`): reads lines until the
stream is exhausted or `GetWIMPParams` returns `false`. -/
def loopTrace (type : Nat) : List (List Token) → List Event
  | [] => []
  | line :: rest =>
    match GetWIMPParams line with
    | none => []
    | some c => iterEvents type c ++ loopTrace type rest

/-- The observable trace of `main` on argument vector `args` (excluding
`argv[0]`) and standard-input lines `input`: argument scan, then — unless
`--help` exited the process — handle creation, the input loop, and the final
`FreeAll`. -/
def mainTrace (args : List String) (input : List (List Token)) : List Event :=
  match argLoop TYPE_MFA args with
  | (es, none) => es
  | (es, some type) => es ++ initEvents ++ loopTrace type input ++ [Event.freeAll]

/-- `true` exactly on the `freeAll` event; used to count teardown calls. -/
def isFreeAll : Event → Bool
  | Event.freeAll => true
  | _ => false

/-- `true` exactly on the two mode-selecting flags `--mG` and `--mfa`. -/
def isModeFlag (a : String) : Bool := a == "--mG" || a == "--mfa"

/-- If `--help` does not occur among the arguments, the argument scan runs
to completion and yields some type. -/
theorem argLoop_no_help_some (args : List String) :
    ∀ type, "--help" ∉ args → ∃ t, (argLoop type args).2 = some t := by
  induction args with
  | nil => exact fun type _ => ⟨type, rfl⟩
  | cons a rest ih =>
    intro type h
    have ha : a ≠ "--help" := fun e => h (e ▸ List.mem_cons_self a rest)
    have hrest : "--help" ∉ rest := fun hr => h (List.mem_cons_of_mem a hr)
    by_cases h1 : a = "--mG"
    · simpa [argLoop, h1] using ih TYPE_MG hrest
    · by_cases h2 : a = "--mfa"
      · simpa [argLoop, h1, h2] using ih TYPE_MFA hrest
      · simpa [argLoop, h1, h2, ha] using ih type hrest

/-- If `--help` does not occur among the arguments, every event emitted by
the argument scan is a warning about an unknown argument. -/
theorem argLoop_no_help_warnings (args : List String) :
    ∀ type, "--help" ∉ args →
      ∀ e ∈ (argLoop type args).1, ∃ s, e = Event.warnUnknown s := by
  induction args with
  | nil => intro type _ e he; simp [argLoop] at he
  | cons a rest ih =>
    intro type h e he
    have ha : a ≠ "--help" := fun e' => h (e' ▸ List.mem_cons_self a rest)
    have hrest : "--help" ∉ rest := fun hr => h (List.mem_cons_of_mem a hr)
    by_cases h1 : a = "--mG"
    · exact ih TYPE_MG hrest e (by simpa [argLoop, h1] using he)
    · by_cases h2 : a = "--mfa"
      · exact ih TYPE_MFA hrest e (by simpa [argLoop, h1, h2] using he)
      · simp only [argLoop, h1, h2, ha, if_false, if_neg, List.mem_cons] at he
        rcases he with he | he
        · exact ⟨a, he⟩
        · exact ih type hrest e he

/-- If `--help` occurs among the arguments, the scan emits only unknown-
argument warnings before printing the usage message and exiting, and the
scan result is `none` (the process exits). -/
theorem argLoop_help (args : List String) :
    ∀ type, "--help" ∈ args →
      ∃ pre, (∀ e ∈ pre, ∃ s, e = Event.warnUnknown s) ∧
        (argLoop type args).1 = pre ++ [Event.printLines usageMessage, Event.exitZero] ∧
        (argLoop type args).2 = none := by
  induction args with
  | nil => intro type h; exact absurd h (List.not_mem_nil _)
  | cons a rest ih =>
    intro type h
    by_cases h1 : a = "--mG"
    · have hrest : "--help" ∈ rest := by
        rcases List.mem_cons.mp h with h' | h'
        · exact absurd (h1 ▸ h').symm (by decide)
        · exact h'
      simpa [argLoop, h1] using ih TYPE_MG hrest
    · by_cases h2 : a = "--mfa"
      · have hrest : "--help" ∈ rest := by
          rcases List.mem_cons.mp h with h' | h'
          · exact absurd (h2 ▸ h').symm (by decide)
          · exact h'
        simpa [argLoop, h1, h2] using ih TYPE_MFA hrest
      · by_cases h3 : a = "--help"
        · exact ⟨[], by simp, by simp [argLoop, h1, h2, h3], by simp [argLoop, h1, h2, h3]⟩
        · have hrest : "--help" ∈ rest := by
            rcases List.mem_cons.mp h with h' | h'
            · exact absurd h'.symm h3
            · exact h'
          obtain ⟨pre, hw, h1', h2'⟩ := ih type hrest
          refine ⟨Event.warnUnknown a :: pre, ?_, ?_, ?_⟩
          · intro e he
            rcases List.mem_cons.mp he with he | he
            · exact ⟨a, he⟩
            · exact hw e he
          · simp [argLoop, h1, h2, h3, h1']
          · simp [argLoop, h1, h2, h3, h2']

/-- Once the type is `TYPE_MG`, a scan of arguments containing no `--mfa`
that runs to completion ends with type `TYPE_MG`. -/
theorem argLoop_keeps_mG (args : List String) :
    ∀ t, "--mfa" ∉ args → (argLoop TYPE_MG args).2 = some t → t = TYPE_MG := by
  induction args with
  | nil => intro t _ h; simpa [argLoop] using h.symm
  | cons a rest ih =>
    intro t h hr
    have ha : a ≠ "--mfa" := fun e => h (e ▸ List.mem_cons_self a rest)
    have hrest : "--mfa" ∉ rest := fun hm => h (List.mem_cons_of_mem a hm)
    by_cases h1 : a = "--mG"
    · exact ih t hrest (by simpa [argLoop, h1] using hr)
    · by_cases h3 : a = "--help"
      · simp [argLoop, h1, ha, h3] at hr
      · exact ih t hrest (by simpa [argLoop, h1, ha, h3] using hr)

/-- A scan of arguments containing neither `--mG` nor `--mfa` that runs to
completion leaves the type unchanged. -/
theorem argLoop_keeps_type (args : List String) :
    ∀ type t, "--mG" ∉ args → "--mfa" ∉ args →
      (argLoop type args).2 = some t → t = type := by
  induction args with
  | nil => intro type t _ _ h; simpa [argLoop] using h.symm
  | cons a rest ih =>
    intro type t hG hF hr
    have haG : a ≠ "--mG" := fun e => hG (e ▸ List.mem_cons_self a rest)
    have haF : a ≠ "--mfa" := fun e => hF (e ▸ List.mem_cons_self a rest)
    have hGrest : "--mG" ∉ rest := fun hm => hG (List.mem_cons_of_mem a hm)
    have hFrest : "--mfa" ∉ rest := fun hm => hF (List.mem_cons_of_mem a hm)
    by_cases h3 : a = "--help"
    · simp [argLoop, haG, haF, h3] at hr
    · exact ih type t hGrest hFrest (by simpa [argLoop, haG, haF, h3] using hr)

/-- A completed scan of arguments containing `--mG` but no `--mfa` ends
with type `TYPE_MG`, whatever the starting type. -/
theorem argLoop_mG_selected (args : List String) :
    ∀ type t, "--mG" ∈ args → "--mfa" ∉ args →
      (argLoop type args).2 = some t → t = TYPE_MG := by
  induction args with
  | nil => intro type t h _ _; exact absurd h (List.not_mem_nil _)
  | cons a rest ih =>
    intro type t hG hF hr
    have haF : a ≠ "--mfa" := fun e => hF (e ▸ List.mem_cons_self a rest)
    have hFrest : "--mfa" ∉ rest := fun hm => hF (List.mem_cons_of_mem a hm)
    by_cases h1 : a = "--mG"
    · exact argLoop_keeps_mG rest t hFrest (by simpa [argLoop, h1] using hr)
    · have hGrest : "--mG" ∈ rest := by
        rcases List.mem_cons.mp hG with h' | h'
        · exact absurd h'.symm h1
        · exact h'
      by_cases h3 : a = "--help"
      · simp [argLoop, h1, haF, h3] at hr
      · exact ih type t hGrest hFrest (by simpa [argLoop, h1, haF, h3] using hr)

/-- Every `CalcRates` event emitted by the input loop names one of the four
detectors created by `main`. -/
theorem loopTrace_calcRates_mem (input : List (List Token)) :
    ∀ type d, Event.calcRates d ∈ loopTrace type input →
      d ∈ ["XENON100_2012", "LUX_2013", "SuperCDMS_2014", "SIMPLE_2014"] := by
  induction input with
  | nil => intro type d h; simp [loopTrace] at h
  | cons line rest ih =>
    intro type d h
    rw [loopTrace] at h
    cases hp : GetWIMPParams line with
    | none => rw [hp] at h; simp at h
    | some c =>
      rw [hp, List.mem_append] at h
      rcases h with h | h
      · rw [iterEvents, List.mem_append] at h
        rcases h with h | h
        · split at h <;> simp_all
        · simp only [List.mem_cons, List.not_mem_nil, or_false] at h
          rcases h with h | h | h | h | h | h | h <;> simp_all
      · exact ih type d h

/-- The input loop never emits the teardown event. -/
theorem loopTrace_no_freeAll (input : List (List Token)) :
    ∀ type, Event.freeAll ∉ loopTrace type input := by
  induction input with
  | nil => intro type h; simp [loopTrace] at h
  | cons line rest ih =>
    intro type h
    rw [loopTrace] at h
    cases hp : GetWIMPParams line with
    | none => rw [hp] at h; simp at h
    | some c =>
      rw [hp, List.mem_append] at h
      rcases h with h | h
      · rw [iterEvents, List.mem_append] at h
        rcases h with h | h
        · split at h <;> simp_all
        · simp at h
      · exact ih type h

/-- When the argument scan completes with some type, the trace of `main` is
the scan's warnings, the handle creations, the input loop and the teardown. -/
theorem mainTrace_of_scan_some (args : List String) (input : List (List Token)) (t : Nat)
    (ht : (argLoop TYPE_MFA args).2 = some t) :
    mainTrace args input =
      (argLoop TYPE_MFA args).1 ++ initEvents ++ loopTrace t input ++ [Event.freeAll] := by
  rcases hA : argLoop TYPE_MFA args with ⟨es, r⟩
  rw [hA] at ht
  simp only at ht
  subst ht
  simp [mainTrace, hA]

/-- When the argument scan exits the process (`--help`), the trace of `main`
is just the scan's events. -/
theorem mainTrace_of_scan_none (args : List String) (input : List (List Token))
    (ht : (argLoop TYPE_MFA args).2 = none) :
    mainTrace args input = (argLoop TYPE_MFA args).1 := by
  rcases hA : argLoop TYPE_MFA args with ⟨es, r⟩
  rw [hA] at ht
  simp only at ht
  subst ht
  simp [mainTrace, hA]

/-- A list of events not containing `freeAll` has no teardown calls. -/
theorem countP_isFreeAll_of_not_mem (l : List Event) (h : Event.freeAll ∉ l) :
    l.countP isFreeAll = 0 := by
  rw [List.countP_eq_zero]
  intro e he hfe
  cases e <;> simp [isFreeAll] at hfe
  exact h he

/-- C1, counterexample: on the concrete line `100 1 abc` — a malformed
numeric token at the third field position — `GetWIMPParams` does not fail:
it succeeds with the default fill `(100, 1, 1, 0, 0)`, and the interactive
loop does not terminate on that line but prints a report for it. -/
theorem C1_counterexample :
    GetWIMPParams [Token.num 100, Token.num 1, Token.bad] = some ⟨100, 1, 1, 0, 0⟩ ∧
    GetWIMPParams [Token.num 100, Token.num 1, Token.bad] ≠ none ∧
    Event.printReport ∈ loopTrace TYPE_MFA [[Token.num 100, Token.num 1, Token.bad]] := by
  refine ⟨rfl, ?_, ?_⟩ <;> decide

/-- C1, amended: a malformed numeric token makes the corresponding field
read fail exactly as end of input for that line would; at field positions 1
or 2 this makes `GetWIMPParams` fail and the loop terminate with no report,
while at positions 3, 4 or 5 the cascading default fill applies and the
line still succeeds. -/
theorem C1_malformed_token_treated_as_line_end (v1 v2 v3 v4 : ℚ) (ts : List Token) :
    GetWIMPParams (Token.bad :: ts) = none ∧
    GetWIMPParams (Token.num v1 :: Token.bad :: ts) = none ∧
    GetWIMPParams (Token.num v1 :: Token.num v2 :: Token.bad :: ts) =
      some ⟨v1, v2, v2, 0, 0⟩ ∧
    GetWIMPParams (Token.num v1 :: Token.num v2 :: Token.num v3 :: Token.bad :: ts) =
      some ⟨v1, v2, v3, 0, 0⟩ ∧
    GetWIMPParams
        (Token.num v1 :: Token.num v2 :: Token.num v3 :: Token.num v4 :: Token.bad :: ts) =
      some ⟨v1, v2, v3, v4, v4⟩ ∧
    (∀ type rest, loopTrace type ((Token.bad :: ts) :: rest) = []) ∧
    (∀ type rest, loopTrace type ((Token.num v1 :: Token.bad :: ts) :: rest) = []) :=
  ⟨rfl, rfl, rfl, rfl, rfl, fun _ _ => rfl, fun _ _ => rfl⟩

/-- C2: a line with exactly two numeric fields `M x` succeeds and yields the
CouplingSet `(M, x, x, 0, 0)`: the third field is set equal to the second
and the fourth and fifth are set to zero. -/
theorem C2_two_field_line (mv x : ℚ) :
    GetWIMPParams [Token.num mv, Token.num x] = some ⟨mv, x, x, 0, 0⟩ :=
  rfl

/-- C3: a line with exactly four numeric fields `M x y z` succeeds and
yields `(M, x, y, z, z)` — the missing fifth field is set equal to the
fourth — and a line with all five fields yields the verbatim five-tuple. -/
theorem C3_four_and_five_field_lines (mv x y z w : ℚ) :
    GetWIMPParams [Token.num mv, Token.num x, Token.num y, Token.num z] =
      some ⟨mv, x, y, z, z⟩ ∧
    GetWIMPParams [Token.num mv, Token.num x, Token.num y, Token.num z, Token.num w] =
      some ⟨mv, x, y, z, w⟩ :=
  ⟨rfl, rfl⟩

/-- C10: on a line with more than five tokens, `GetWIMPParams` reads only
the first five numeric fields — the remaining tokens, even malformed ones,
are never read — and the result equals that of the corresponding five-field
line. -/
theorem C10_trailing_tokens_ignored (v1 v2 v3 v4 v5 : ℚ) (rest : List Token) :
    GetWIMPParams (Token.num v1 :: Token.num v2 :: Token.num v3 :: Token.num v4 ::
        Token.num v5 :: rest) = some ⟨v1, v2, v3, v4, v5⟩ ∧
    GetWIMPParams (Token.num v1 :: Token.num v2 :: Token.num v3 :: Token.num v4 ::
        Token.num v5 :: rest) =
      GetWIMPParams [Token.num v1, Token.num v2, Token.num v3, Token.num v4, Token.num v5] :=
  ⟨rfl, rfl⟩

/-- C4: a blank line and a one-field line make `GetWIMPParams` fail; a line
on which `GetWIMPParams` fails (and an exhausted input stream) terminates
the interactive loop without emitting any event for that line; and on any
run that is not exited by `--help`, the bulk teardown `FreeAll` executes
exactly once. -/
theorem C4_failed_line_ends_loop_teardown_once (mv : ℚ) (type : Nat)
    (line : List Token) (rest : List (List Token))
    (args : List String) (input : List (List Token))
    (hline : GetWIMPParams line = none) (hargs : "--help" ∉ args) :
    GetWIMPParams [] = none ∧
    GetWIMPParams [Token.num mv] = none ∧
    loopTrace type (line :: rest) = [] ∧
    loopTrace type [] = [] ∧
    (mainTrace args input).countP isFreeAll = 1 := by
  obtain ⟨t, ht⟩ := argLoop_no_help_some args TYPE_MFA hargs
  have hw := argLoop_no_help_warnings args TYPE_MFA hargs
  refine ⟨rfl, rfl, by simp [loopTrace, hline], rfl, ?_⟩
  rw [mainTrace_of_scan_some args input t ht]
  rw [List.countP_append, List.countP_append, List.countP_append]
  have h1 : (argLoop TYPE_MFA args).1.countP isFreeAll = 0 := by
    rw [List.countP_eq_zero]
    intro e he hfe
    obtain ⟨s, rfl⟩ := hw e he
    simp [isFreeAll] at hfe
  have h2 : initEvents.countP isFreeAll = 0 := by decide
  have h3 : (loopTrace t input).countP isFreeAll = 0 :=
    countP_isFreeAll_of_not_mem _ (loopTrace_no_freeAll input t)
  rw [h1, h2, h3]
  decide

/-- C4, witness: on the empty argument vector and an input consisting of one
blank line, the loop emits nothing and teardown runs exactly once. -/
theorem C4_witness :
    GetWIMPParams ([] : List Token) = none ∧
    GetWIMPParams [Token.num 5] = none ∧
    loopTrace TYPE_MFA [([] : List Token)] = [] ∧
    loopTrace TYPE_MFA [] = [] ∧
    (mainTrace [] [[]]).countP isFreeAll = 1 :=
  C4_failed_line_ends_loop_teardown_once 5 TYPE_MFA [] [] [] [[]] rfl
    (List.not_mem_nil _)

/-- C5: an argument vector containing `--mG` and no `--mfa` whose scan
completes yields raw-coupling mode `TYPE_MG`; one containing neither flag
yields the default standard-coupling mode `TYPE_MFA`; and an unrecognized
token only prepends a warning event, leaving the scan of the remaining
arguments (and hence the mode) unchanged. -/
theorem C5_mode_selection (args rest : List String) (t type0 : Nat) (a : String) :
    ("--mG" ∈ args → "--mfa" ∉ args → (argLoop TYPE_MFA args).2 = some t → t = TYPE_MG) ∧
    ("--mG" ∉ args → "--mfa" ∉ args → (argLoop TYPE_MFA args).2 = some t → t = TYPE_MFA) ∧
    (a ≠ "--mG" → a ≠ "--mfa" → a ≠ "--help" →
      argLoop type0 (a :: rest) =
        (Event.warnUnknown a :: (argLoop type0 rest).1, (argLoop type0 rest).2)) := by
  refine ⟨fun h1 h2 h3 => argLoop_mG_selected args TYPE_MFA t h1 h2 h3,
          fun h1 h2 h3 => argLoop_keeps_type args TYPE_MFA t h1 h2 h3,
          fun h1 h2 h3 => ?_⟩
  simp [argLoop, h1, h2, h3]

/-- C5, witness: `["--mG", "--xyz"]` selects `TYPE_MG`, `["--xyz"]` keeps
the default `TYPE_MFA`, and the unknown token `--xyz` just emits a warning. -/
theorem C5_witness :
    (1 : Nat) = TYPE_MG ∧ (2 : Nat) = TYPE_MFA ∧
    argLoop TYPE_MFA ["--xyz"] =
      (Event.warnUnknown "--xyz" :: (argLoop TYPE_MFA []).1, (argLoop TYPE_MFA []).2) := by
  obtain ⟨hA, -, -⟩ := C5_mode_selection ["--mG", "--xyz"] [] 1 TYPE_MFA "--q"
  obtain ⟨-, hB, -⟩ := C5_mode_selection ["--xyz"] [] 2 TYPE_MFA "--q"
  obtain ⟨-, -, hC⟩ := C5_mode_selection [] [] 0 TYPE_MFA "--xyz"
  exact ⟨hA (by decide) (by decide) (by decide),
         hB (by decide) (by decide) (by decide),
         hC (by decide) (by decide) (by decide)⟩

/-- C6, counterexample: on the concrete argument vector `["--help"]` the
program prints the usage message and exits with status 0, but the usage
message has four lines, not two. -/
theorem C6_counterexample :
    mainTrace ["--help"] [] = [Event.printLines usageMessage, Event.exitZero] ∧
    usageMessage.length ≠ 2 ∧ usageMessage.length = 4 := by
  refine ⟨by decide, by decide, rfl⟩

/-- C6, amended: if any argument equals `--help`, the program prints the
four-line usage message and terminates the process immediately with exit
status 0, bypassing all later stages: no handle creation, no WIMP setter,
no rate computation and no teardown appear in the trace, whose only other
events are unknown-argument warnings for the arguments scanned earlier. -/
theorem C6_help_prints_usage_and_exits (args : List String) (input : List (List Token))
    (h : "--help" ∈ args) :
    ∃ pre,
      (∀ e ∈ pre, ∃ s, e = Event.warnUnknown s) ∧
      mainTrace args input = pre ++ [Event.printLines usageMessage, Event.exitZero] ∧
      usageMessage.length = 4 ∧
      Event.initHalo ∉ mainTrace args input ∧
      Event.initWIMP ∉ mainTrace args input ∧
      (∀ d, Event.initDetector d ∉ mainTrace args input) ∧
      (∀ c, Event.setWIMP_mG c ∉ mainTrace args input) ∧
      (∀ c, Event.setWIMP_mfa c ∉ mainTrace args input) ∧
      (∀ d, Event.calcRates d ∉ mainTrace args input) ∧
      Event.freeAll ∉ mainTrace args input := by
  obtain ⟨pre, hw, h1, h2⟩ := argLoop_help args TYPE_MFA h
  have htr : mainTrace args input = pre ++ [Event.printLines usageMessage, Event.exitZero] := by
    rw [mainTrace_of_scan_none args input h2, h1]
  have hnm : ∀ e : Event, (∀ s, e ≠ Event.warnUnknown s) →
      e ≠ Event.printLines usageMessage → e ≠ Event.exitZero →
      e ∉ mainTrace args input := by
    intro e hne1 hne2 hne3 hin
    rw [htr, List.mem_append] at hin
    rcases hin with hin | hin
    · obtain ⟨s, rfl⟩ := hw e hin
      exact hne1 s rfl
    · rcases List.mem_cons.mp hin with h' | h'
      · exact hne2 h'
      · rcases List.mem_cons.mp h' with h'' | h''
        · exact hne3 h''
        · simp at h''
  exact ⟨pre, hw, htr, rfl,
    hnm _ (by simp) (by simp) (by simp),
    hnm _ (by simp) (by simp) (by simp),
    fun d => hnm _ (by simp) (by simp) (by simp),
    fun c => hnm _ (by simp) (by simp) (by simp),
    fun c => hnm _ (by simp) (by simp) (by simp),
    fun d => hnm _ (by simp) (by simp) (by simp),
    hnm _ (by simp) (by simp) (by simp)⟩

/-- C6, witness: concrete run with argument vector `["--help"]`. -/
theorem C6_witness :
    "--help" ∈ (["--help"] : List String) ∧
    (∃ pre,
      (∀ e ∈ pre, ∃ s, e = Event.warnUnknown s) ∧
      mainTrace ["--help"] [] = pre ++ [Event.printLines usageMessage, Event.exitZero] ∧
      usageMessage.length = 4 ∧
      Event.initHalo ∉ mainTrace ["--help"] [] ∧
      Event.initWIMP ∉ mainTrace ["--help"] [] ∧
      (∀ d, Event.initDetector d ∉ mainTrace ["--help"] []) ∧
      (∀ c, Event.setWIMP_mG c ∉ mainTrace ["--help"] []) ∧
      (∀ c, Event.setWIMP_mfa c ∉ mainTrace ["--help"] []) ∧
      (∀ d, Event.calcRates d ∉ mainTrace ["--help"] []) ∧
      Event.freeAll ∉ mainTrace ["--help"] []) :=
  ⟨by decide, C6_help_prints_usage_and_exits ["--help"] [] (by decide)⟩

/-- C7: in every loop iteration whose line parses to a CouplingSet, the
events are, in order: the setter matching the active mode (`SetWIMP_mG` in
raw mode, `SetWIMP_mfa` in standard mode), the read-backs `GetWIMP_mfa`
then `GetWIMP_mG`, one `CalcRates` for each of the four detector handles,
and finally the printed report — followed by the rest of the loop. -/
theorem C7_iteration_call_order (type : Nat) (c : CouplingSet)
    (line : List Token) (rest : List (List Token))
    (htype : type = TYPE_MG ∨ type = TYPE_MFA)
    (hline : GetWIMPParams line = some c) :
    loopTrace type (line :: rest) =
      ((if type = TYPE_MG then [Event.setWIMP_mG c] else [Event.setWIMP_mfa c]) ++
       [Event.getWIMP_mfa, Event.getWIMP_mG,
        Event.calcRates "XENON100_2012", Event.calcRates "LUX_2013",
        Event.calcRates "SuperCDMS_2014", Event.calcRates "SIMPLE_2014",
        Event.printReport]) ++ loopTrace type rest := by
  rcases htype with h | h <;> subst h <;>
    simp [loopTrace, hline, iterEvents, TYPE_MG, TYPE_MFA]

/-- C7, witness: concrete iteration on the line `100 4` in standard mode. -/
theorem C7_witness :
    (TYPE_MFA = TYPE_MG ∨ TYPE_MFA = TYPE_MFA) ∧
    GetWIMPParams [Token.num 100, Token.num 4] = some ⟨100, 4, 4, 0, 0⟩ ∧
    loopTrace TYPE_MFA [[Token.num 100, Token.num 4]] =
      ((if TYPE_MFA = TYPE_MG then [Event.setWIMP_mG ⟨100, 4, 4, 0, 0⟩]
        else [Event.setWIMP_mfa ⟨100, 4, 4, 0, 0⟩]) ++
       [Event.getWIMP_mfa, Event.getWIMP_mG,
        Event.calcRates "XENON100_2012", Event.calcRates "LUX_2013",
        Event.calcRates "SuperCDMS_2014", Event.calcRates "SIMPLE_2014",
        Event.printReport]) ++ loopTrace TYPE_MFA [] :=
  ⟨Or.inr rfl, rfl,
   C7_iteration_call_order TYPE_MFA ⟨100, 4, 4, 0, 0⟩ [Token.num 100, Token.num 4] []
     (Or.inr rfl) rfl⟩

/-- C8: unless `--help` exits early, the trace of `main` creates, in order,
one Halo handle, one WIMP handle, and the four detector handles (XENON100
2012, LUX 2013, SuperCDMS 2014, SIMPLE 2014), all before the input loop and
the teardown, preceded only by unknown-argument warnings; hence every
`CalcRates` event in the trace is preceded by the creation of the Halo, the
WIMP and the detector handle it uses. -/
theorem C8_initialization_precedes_rates (args : List String) (input : List (List Token))
    (h : "--help" ∉ args) :
    ∃ pre t,
      (∀ e ∈ pre, ∃ s, e = Event.warnUnknown s) ∧
      (argLoop TYPE_MFA args).2 = some t ∧
      mainTrace args input =
        pre ++ [Event.initHalo, Event.initWIMP,
          Event.initDetector "XENON100_2012", Event.initDetector "LUX_2013",
          Event.initDetector "SuperCDMS_2014", Event.initDetector "SIMPLE_2014"] ++
        loopTrace t input ++ [Event.freeAll] ∧
      (∀ i d, (mainTrace args input)[i]? = some (Event.calcRates d) →
        ∃ jH jW jD : Nat, jH < i ∧ jW < i ∧ jD < i ∧
          (mainTrace args input)[jH]? = some Event.initHalo ∧
          (mainTrace args input)[jW]? = some Event.initWIMP ∧
          (mainTrace args input)[jD]? = some (Event.initDetector d)) := by
  obtain ⟨t, ht⟩ := argLoop_no_help_some args TYPE_MFA h
  have hw := argLoop_no_help_warnings args TYPE_MFA h
  have htr : mainTrace args input =
      (argLoop TYPE_MFA args).1 ++ initEvents ++ loopTrace t input ++ [Event.freeAll] :=
    mainTrace_of_scan_some args input t ht
  have htr2 : mainTrace args input =
      ((argLoop TYPE_MFA args).1 ++ initEvents) ++ (loopTrace t input ++ [Event.freeAll]) := by
    rw [htr]; simp [List.append_assoc]
  refine ⟨(argLoop TYPE_MFA args).1, t, hw, ht, by rw [htr]; rfl, ?_⟩
  intro i d hi
  have hlenA : ((argLoop TYPE_MFA args).1 ++ initEvents).length =
      (argLoop TYPE_MFA args).1.length + 6 := by simp [initEvents]
  have hiA : ((argLoop TYPE_MFA args).1 ++ initEvents).length ≤ i := by
    by_contra hlt
    push_neg at hlt
    rw [htr2, List.getElem?_append_left hlt] at hi
    have hmem : Event.calcRates d ∈ (argLoop TYPE_MFA args).1 ++ initEvents := by
      obtain ⟨hn, he⟩ := List.getElem?_eq_some.mp hi
      exact he ▸ List.getElem_mem hn
    rw [List.mem_append] at hmem
    rcases hmem with hm | hm
    · obtain ⟨s, hs⟩ := hw _ hm
      simp at hs
    · simp [initEvents] at hm
  have hd : d ∈ ["XENON100_2012", "LUX_2013", "SuperCDMS_2014", "SIMPLE_2014"] := by
    rw [htr2, List.getElem?_append_right hiA] at hi
    have hmem : Event.calcRates d ∈ loopTrace t input ++ [Event.freeAll] := by
      obtain ⟨hn, he⟩ := List.getElem?_eq_some.mp hi
      exact he ▸ List.getElem_mem hn
    rw [List.mem_append] at hmem
    rcases hmem with hm | hm
    · exact loopTrace_calcRates_mem input t d hm
    · simp at hm
  rw [hlenA] at hiA
  have hread : ∀ k : Nat, k < 6 →
      (mainTrace args input)[(argLoop TYPE_MFA args).1.length + k]? = initEvents[k]? := by
    intro k hk
    rw [htr2, List.getElem?_append_left (by rw [hlenA]; omega),
        List.getElem?_append_right
          (by omega : (argLoop TYPE_MFA args).1.length ≤ (argLoop TYPE_MFA args).1.length + k)]
    congr 1
    omega
  have hhalo : (mainTrace args input)[(argLoop TYPE_MFA args).1.length]? =
      some Event.initHalo := by
    have h0 := hread 0 (by omega)
    simpa using h0
  have hwimp : (mainTrace args input)[(argLoop TYPE_MFA args).1.length + 1]? =
      some Event.initWIMP := by
    have h1 := hread 1 (by omega)
    rw [h1]; rfl
  simp only [List.mem_cons, List.not_mem_nil, or_false] at hd
  rcases hd with rfl | rfl | rfl | rfl
  · exact ⟨(argLoop TYPE_MFA args).1.length, (argLoop TYPE_MFA args).1.length + 1,
      (argLoop TYPE_MFA args).1.length + 2, by omega, by omega, by omega,
      hhalo, hwimp, by rw [hread 2 (by omega)]; rfl⟩
  · exact ⟨(argLoop TYPE_MFA args).1.length, (argLoop TYPE_MFA args).1.length + 1,
      (argLoop TYPE_MFA args).1.length + 3, by omega, by omega, by omega,
      hhalo, hwimp, by rw [hread 3 (by omega)]; rfl⟩
  · exact ⟨(argLoop TYPE_MFA args).1.length, (argLoop TYPE_MFA args).1.length + 1,
      (argLoop TYPE_MFA args).1.length + 4, by omega, by omega, by omega,
      hhalo, hwimp, by rw [hread 4 (by omega)]; rfl⟩
  · exact ⟨(argLoop TYPE_MFA args).1.length, (argLoop TYPE_MFA args).1.length + 1,
      (argLoop TYPE_MFA args).1.length + 5, by omega, by omega, by omega,
      hhalo, hwimp, by rw [hread 5 (by omega)]; rfl⟩

/-- C8, witness: concrete run with no arguments and one parsed input line. -/
theorem C8_witness :
    "--help" ∉ ([] : List String) ∧
    (∃ pre t,
      (∀ e ∈ pre, ∃ s, e = Event.warnUnknown s) ∧
      (argLoop TYPE_MFA []).2 = some t ∧
      mainTrace [] [[Token.num 100, Token.num 4]] =
        pre ++ [Event.initHalo, Event.initWIMP,
          Event.initDetector "XENON100_2012", Event.initDetector "LUX_2013",
          Event.initDetector "SuperCDMS_2014", Event.initDetector "SIMPLE_2014"] ++
        loopTrace t [[Token.num 100, Token.num 4]] ++ [Event.freeAll] ∧
      (∀ i d, (mainTrace [] [[Token.num 100, Token.num 4]])[i]? =
          some (Event.calcRates d) →
        ∃ jH jW jD : Nat, jH < i ∧ jW < i ∧ jD < i ∧
          (mainTrace [] [[Token.num 100, Token.num 4]])[jH]? = some Event.initHalo ∧
          (mainTrace [] [[Token.num 100, Token.num 4]])[jW]? = some Event.initWIMP ∧
          (mainTrace [] [[Token.num 100, Token.num 4]])[jD]? =
            some (Event.initDetector d))) :=
  ⟨List.not_mem_nil _,
   C8_initialization_precedes_rates [] [[Token.num 100, Token.num 4]] (List.not_mem_nil _)⟩

/-- A completed argument scan ends with the type selected by the last
mode flag among the arguments, or with the starting type if there is none. -/
theorem argLoop_last_flag (args : List String) :
    ∀ type t, (argLoop type args).2 = some t →
      (args.filter isModeFlag = [] → t = type) ∧
      (∀ l, (args.filter isModeFlag).getLast? = some l →
        (l = "--mG" → t = TYPE_MG) ∧ (l = "--mfa" → t = TYPE_MFA)) := by
  induction args with
  | nil =>
    intro type t h
    refine ⟨fun _ => by simpa [argLoop] using h.symm, fun l hl => by simp at hl⟩
  | cons a rest ih =>
    intro type t h
    by_cases h1 : a = "--mG"
    · subst h1
      have h' : (argLoop TYPE_MG rest).2 = some t := by simpa [argLoop] using h
      obtain ⟨hc1, hc2⟩ := ih TYPE_MG t h'
      constructor
      · intro hf
        rw [List.filter_cons_of_pos (by simp [isModeFlag])] at hf
        simp at hf
      · intro l hl
        rw [List.filter_cons_of_pos (by simp [isModeFlag])] at hl
        cases hfr : rest.filter isModeFlag with
        | nil =>
          rw [hfr, List.getLast?_singleton] at hl
          have hl' : l = "--mG" := by simpa using hl.symm
          subst hl'
          exact ⟨fun _ => hc1 hfr, fun hbad => absurd hbad (by decide)⟩
        | cons b bs =>
          rw [hfr, List.getLast?_cons_cons] at hl
          exact hc2 l (by rw [hfr]; exact hl)
    · by_cases h2 : a = "--mfa"
      · subst h2
        have h' : (argLoop TYPE_MFA rest).2 = some t := by simpa [argLoop] using h
        obtain ⟨hc1, hc2⟩ := ih TYPE_MFA t h'
        constructor
        · intro hf
          rw [List.filter_cons_of_pos (by simp [isModeFlag])] at hf
          simp at hf
        · intro l hl
          rw [List.filter_cons_of_pos (by simp [isModeFlag])] at hl
          cases hfr : rest.filter isModeFlag with
          | nil =>
            rw [hfr, List.getLast?_singleton] at hl
            have hl' : l = "--mfa" := by simpa using hl.symm
            subst hl'
            exact ⟨fun hbad => absurd hbad (by decide), fun _ => hc1 hfr⟩
          | cons b bs =>
            rw [hfr, List.getLast?_cons_cons] at hl
            exact hc2 l (by rw [hfr]; exact hl)
      · by_cases h3 : a = "--help"
        · simp [argLoop, h1, h2, h3] at h
        · have h' : (argLoop type rest).2 = some t := by
            simpa [argLoop, h1, h2, h3] using h
          obtain ⟨hc1, hc2⟩ := ih type t h'
          have hfe : (a :: rest).filter isModeFlag = rest.filter isModeFlag :=
            List.filter_cons_of_neg (by simp [isModeFlag, h1, h2])
          exact ⟨fun hf => hc1 (hfe ▸ hf), fun l hl => hc2 l (hfe ▸ hl)⟩

/-- C9: on an argument vector containing both `--mG` and `--mfa` whose scan
completes, the resulting mode is the one selected by whichever of the two
flags appears last in argument order; and each flag occurrence simply
overwrites the mode, whatever it was before. -/
theorem C9_last_mode_flag_wins (args rest' : List String) (t type0 : Nat)
    (hG : "--mG" ∈ args) ( _hF : "--mfa" ∈ args)
    (ht : (argLoop TYPE_MFA args).2 = some t) :
    (∃ l, (args.filter isModeFlag).getLast? = some l ∧
       ((l = "--mG" ∧ t = TYPE_MG) ∨ (l = "--mfa" ∧ t = TYPE_MFA))) ∧
    argLoop type0 ("--mG" :: rest') = argLoop TYPE_MG rest' ∧
    argLoop type0 ("--mfa" :: rest') = argLoop TYPE_MFA rest' := by
  obtain ⟨-, hc2⟩ := argLoop_last_flag args TYPE_MFA t ht
  have hne : args.filter isModeFlag ≠ [] := by
    intro hf
    have hm : "--mG" ∈ args.filter isModeFlag :=
      List.mem_filter.mpr ⟨hG, by simp [isModeFlag]⟩
    rw [hf] at hm
    simp at hm
  have hlast : (args.filter isModeFlag).getLast? =
      some ((args.filter isModeFlag).getLast hne) :=
    List.getLast?_eq_getLast_of_ne_nil hne
  have hmem : (args.filter isModeFlag).getLast hne ∈ args.filter isModeFlag :=
    List.getLast_mem hne
  have hflag : isModeFlag ((args.filter isModeFlag).getLast hne) = true :=
    (List.mem_filter.mp hmem).2
  obtain ⟨ha, hb⟩ := hc2 _ hlast
  refine ⟨⟨_, hlast, ?_⟩, by simp [argLoop], by simp [argLoop]⟩
  simp only [isModeFlag, Bool.or_eq_true, beq_iff_eq] at hflag
  rcases hflag with hflag | hflag
  · exact Or.inl ⟨hflag, ha hflag⟩
  · exact Or.inr ⟨hflag, hb hflag⟩

/-- C9, witness: on `["--mG", "--mfa"]` the scan completes with the mode of
the last flag, `TYPE_MFA`. -/
theorem C9_witness :
    "--mG" ∈ (["--mG", "--mfa"] : List String) ∧
    "--mfa" ∈ (["--mG", "--mfa"] : List String) ∧
    (argLoop TYPE_MFA ["--mG", "--mfa"]).2 = some TYPE_MFA ∧
    ((∃ l, ((["--mG", "--mfa"] : List String).filter isModeFlag).getLast? = some l ∧
       ((l = "--mG" ∧ TYPE_MFA = TYPE_MG) ∨ (l = "--mfa" ∧ TYPE_MFA = TYPE_MFA))) ∧
     argLoop 0 ("--mG" :: []) = argLoop TYPE_MG [] ∧
     argLoop 0 ("--mfa" :: []) = argLoop TYPE_MFA []) :=
  ⟨by decide, by decide, by decide,
   C9_last_mode_flag_wins ["--mG", "--mfa"] [] TYPE_MFA 0 (by decide) (by decide) (by decide)⟩

end DDCalcExample
